import Mathlib

/-!
Shallow embedding of the vopono core (src/main.rs, src/vpn.rs) used to verify
the natural-language specification of the repository.

Conventions of the embedding:
* Rust `Result<T, anyhow::Error>` becomes `Except String T`, carrying the
  error message text of the source.
* Rust panics (`expect`, slicing out of bounds) are modelled by a dedicated
  `panic` outcome (in the `exec` model) or by `Option` (for the byte-slice
  of the custom-config server key), never conflated with `Err` returns.
* Randomness (`SliceRandom::choose`) is modelled by an extra argument `k`:
  the chooser picks index `k % length` of the filtered list, so theorems
  quantify over every possible random choice.
* Interactive I/O (`dialoguer` prompts) and the filesystem are passed in as
  explicit arguments: the auth file is `Option (List String)` (its lines, or
  `none` when the file does not exist), prompts are plain `String` inputs.
* Logging (`warn!`) is modelled as a list of emitted warning messages where a
  claim depends on it.
-/

/-- Rust enum `VpnProvider` (src/vpn.rs). -/
inductive VpnProvider where
  | PrivateInternetAccess
  | Mullvad
  | TigerVpn
  | Custom
deriving DecidableEq, Repr

/-- `VpnProvider::alias` (src/vpn.rs): the short provider alias. -/
def VpnProvider.«alias» : VpnProvider → String
  | .PrivateInternetAccess => "pia"
  | .Mullvad => "mv"
  | .TigerVpn => "tig"
  | .Custom => "cus"

/-- Rust enum `OpenVpnProtocol` (src/vpn.rs). -/
inductive OpenVpnProtocol where
  | UDP
  | TCP
deriving DecidableEq, Repr

/-- Rust enum `Protocol` (src/vpn.rs). -/
inductive Protocol where
  | OpenVpn
  | Wireguard
deriving DecidableEq, Repr

/-- Rust struct `VpnServer` (src/vpn.rs): one row of `serverlist.csv`. -/
structure VpnServer where
  name : String
  «alias» : String
  host : String
  port : Option Nat
  protocol : Option OpenVpnProtocol
deriving DecidableEq, Repr

/-- Rust `str::to_lowercase`, modelled character-wise on the string's
character list (the inputs of interest are ASCII). -/
def toLowerStr (s : String) : String :=
  String.mk (s.toList.map Char.toLower)

/-- Rust `str::starts_with`, modelled on the character list. -/
def strStartsWith (s pre : String) : Bool :=
  pre.toList.isPrefixOf s.toList

/-- Rust `str::replace("_", "-")`: a single-character pattern, so each
underscore becomes a hyphen. -/
def replaceUnderscores (s : String) : String :=
  String.mk (s.toList.map (fun c => if c == '_' then '-' else c))

/-- The filter predicate of `find_host_from_alias` (src/vpn.rs lines 135-139),
applied to an already-lowercased alias `a`. -/
def serverMatches (a : String) (x : VpnServer) : Bool :=
  strStartsWith x.name a || strStartsWith x.«alias» a
    || strStartsWith (replaceUnderscores x.name) a

/-- Warning emitted when a server row has no port (src/vpn.rs lines 153-156). -/
def defaultPortWarning (host : String) : String :=
  "Using default OpenVPN port 1194 for " ++ host ++ ", as no port provided"

/-- Warning emitted when a server row has no protocol (src/vpn.rs lines 163-166). -/
def defaultProtocolWarning (host : String) : String :=
  "Using UDP as default OpenVPN protocol for " ++ host ++ ", as no protocol provided"

/-- `find_host_from_alias` (src/vpn.rs lines 128-174) together with the
warnings it logs. `k` resolves the random choice: the chosen record is the
one at index `k % length` of the filtered list. The `expect` on `choose`
never fires because the list is checked non-empty first, which the
embedding witnesses with the bound `k % length < length`. -/
def find_host_from_alias_w (k : Nat) («alias» : String) (serverlist : List VpnServer) :
    Except String (String × Nat × String × OpenVpnProtocol) × List String :=
  let a := toLowerStr «alias»
  let record := serverlist.filter (fun x => serverMatches a x)
  if h : record.length = 0 then
    (.error ("Could not find server alias " ++ a ++ " in serverlist"), [])
  else
    let r := record.get ⟨k % record.length, Nat.mod_lt k (Nat.pos_of_ne_zero h)⟩
    let portWarns := if r.port.isNone then [defaultPortWarning r.host] else []
    let port := match r.port with
      | none => 1194
      | some p => p
    let protoWarns := if r.protocol.isNone then [defaultProtocolWarning r.host] else []
    let protocol := match r.protocol with
      | none => OpenVpnProtocol.UDP
      | some pr => pr
    (.ok (r.host, port, r.«alias», protocol), portWarns ++ protoWarns)

/-- The value returned by `find_host_from_alias` (warnings dropped). -/
def find_host_from_alias (k : Nat) («alias» : String) (serverlist : List VpnServer) :
    Except String (String × Nat × String × OpenVpnProtocol) :=
  (find_host_from_alias_w k «alias» serverlist).1

/-- The record `find_host_from_alias` selects, when any: index `k % length`
of the filtered list. -/
def chosenRecord (k : Nat) («alias» : String) (serverlist : List VpnServer) :
    Option VpnServer :=
  let record := serverlist.filter (fun x => serverMatches (toLowerStr «alias») x)
  record.get? (k % record.length)

/-- `get_auth` (src/vpn.rs lines 179-233). `authFile` is the auth file's
lines when it exists (`File::open` succeeded), `none` when it does not.
`inputUser`/`inputPass` are the interactive prompt answers. The result on
the prompt path is `some contents`, the exact text written to `auth.txt`;
on the existing-file path it is `none` (nothing is written). -/
def get_auth (provider : VpnProvider) (authFile : Option (List String))
    (inputUser inputPass : String) : Except String (Option String) :=
  match authFile with
  | some lines =>
    match lines with
    | [] => .error "No username"
    | [_] => .error "No password"
    | _ :: _ :: _ => .ok none
  | none =>
    let username :=
      if provider = VpnProvider.Mullvad then
        String.mk (inputUser.toList.filter (fun c => !c.isWhitespace && c.isDigit))
      else inputUser
    if provider = VpnProvider.Mullvad ∧ username.length ≠ 16 then
      .error ("Mullvad account number should be 16 digits!, parsed: " ++ username)
    else
      let password := if provider = VpnProvider.Mullvad then "m" else inputPass
      .ok (some (username ++ "\n" ++ password ++ "\n"))

/-- `get_protocol` (src/vpn.rs lines 237-264). -/
def get_protocol (provider : VpnProvider) (protocol : Option Protocol) :
    Except String Protocol :=
  match protocol with
  | some Protocol.Wireguard =>
    match provider with
    | VpnProvider.Mullvad => .ok Protocol.Wireguard
    | VpnProvider.TigerVpn => .error "Wireguard not implemented for TigerVPN"
    | VpnProvider.PrivateInternetAccess =>
      .error "Wireguard not implemented for PrivateInternetAccess"
    | VpnProvider.Custom => .ok Protocol.Wireguard
  | some Protocol.OpenVpn => .ok Protocol.OpenVpn
  | none =>
    match provider with
    | VpnProvider.Mullvad => .ok Protocol.Wireguard
    | VpnProvider.TigerVpn => .ok Protocol.OpenVpn
    | VpnProvider.PrivateInternetAccess => .ok Protocol.OpenVpn
    | VpnProvider.Custom => .ok Protocol.Wireguard

/-- The sanitisation of the custom-config file name used by `exec`
(src/main.rs line 106): characters `' '` and `'-'` are filtered out. -/
def sanitizeConfigName (name : String) : String :=
  String.mk (name.toList.filter (fun c => c != ' ' && c != '-'))

/-- UTF-8 byte length of a list of characters. -/
def utf8Length (l : List Char) : Nat :=
  (l.map Char.utf8Size).sum

/-- Rust byte-slicing `s[0..n]` on a string given as its character list:
`some prefix` when byte `n` is a character boundary within the string,
`none` (a Rust panic) when the string is shorter than `n` bytes or byte `n`
falls inside a multi-byte character. -/
def takeBytes : Nat → List Char → Option (List Char)
  | 0, _ => some []
  | _ + 1, [] => none
  | n + 1, c :: cs =>
    if c.utf8Size ≤ n + 1 then
      (takeBytes (n + 1 - c.utf8Size) cs).map (fun l => c :: l)
    else none

/-- The custom-config server key of `exec` (src/main.rs lines 98-108): the
byte range `[0..4]` of the config file's name (its last path component,
extension included) with spaces and hyphens removed. `none` models the
panic of the byte slice when fewer than 4 sanitized bytes exist or byte 4
is not a character boundary. -/
def customServerKey (fileName : String) : Option String :=
  (takeBytes 4 (sanitizeConfigName fileName).toList).map String.mk

/-- Rust `Path::file_stem` on a bare file name: the part before the last
dot, except that a name with no dot, or whose only dot is a leading one
(a hidden file), is its own stem. Used only to state the spec's wording
of the server key. -/
def fileStem (name : String) : String :=
  let rev := name.toList.reverse
  let ext := rev.takeWhile (fun c => c != '.')
  if ext.length = rev.length then name
  else
    let stemRev := rev.drop (ext.length + 1)
    if stemRev.isEmpty then name else String.mk stemRev.reverse

/-- The server-key as the specification words it (section 3): the first 4
characters of the config file's stem, after removing spaces and hyphens.
Stated only to compare against `customServerKey`, which the source
computes from the full file name. -/
def specStemServerKey (fileName : String) : String :=
  String.mk ((sanitizeConfigName (fileStem fileName)).toList.take 4)

/-- The fields of `ExecCommand` (src/args.rs, consumed by src/main.rs)
that the modelled prefix of `exec` reads. `custom_config` holds the file
name (last path component) of the supplied config file. -/
structure ExecCommand where
  custom_config : Option String
  vpn_provider : Option VpnProvider
  protocol : Option Protocol
  server : Option String
  interface : Option String
deriving DecidableEq, Repr

/-- Ambient facts `exec` consults before creating a namespace: whether the
provider/protocol config directory exists and is non-empty, whether the
`synch` collaborator succeeds when invoked, and the active host network
interfaces (in order). -/
structure ExecEnv where
  configExists : VpnProvider → Protocol → Bool
  syncOk : Bool
  activeInterfaces : List String

/-- Mutable system state the modelled prefix of `exec` can change: the
network namespaces that exist (created namespaces are prepended). -/
structure SysState where
  namespaces : List String
deriving DecidableEq, Repr

/-- Outcome of a run of `exec`: normal return, `Err` return, or panic
(`expect` / out-of-bounds slice). -/
inductive ExecResult (α : Type) where
  | ok (a : α)
  | err (e : String)
  | panic (msg : String)
deriving DecidableEq, Repr

/-- What the modelled prefix of `exec` has determined by the time the
namespace exists: resolved provider and protocol, the namespace name, and
whether a new namespace was created (`true`) or an existing one attached. -/
structure ExecOut where
  provider : VpnProvider
  protocol : Protocol
  nsName : String
  created : Bool
deriving DecidableEq, Repr

/-- The tail of `exec` (src/main.rs lines 118-162) after provider and
server key are fixed: protocol resolution, config-presence check with
`synch` fallback, namespace-name construction, interface lookup, and
namespace creation or attachment. Modelling stops at
`NetworkNamespace::new` / `from_existing`; the later per-protocol setup
and application spawn are outside the modelled prefix. -/
def execAfterProviderResolution (env : ExecEnv) (cmd : ExecCommand) (s : SysState)
    (provider : VpnProvider) (server_name : String) : ExecResult ExecOut × SysState :=
  match get_protocol provider cmd.protocol with
  | .error e => (.err e, s)
  | .ok protocol =>
    if provider ≠ VpnProvider.Custom ∧ env.configExists provider protocol = false
        ∧ env.syncOk = false then
      (.err "sync failed", s)
    else
      let ns_name := "vopono_" ++ provider.«alias» ++ "_" ++ server_name
      let iface := match cmd.interface with
        | some x => some x
        | none => env.activeInterfaces.head?
      match iface with
      | none => (.err "No active network interface", s)
      | some _ =>
        if s.namespaces.contains ns_name then
          (.ok ⟨provider, protocol, ns_name, false⟩, s)
        else
          (.ok ⟨provider, protocol, ns_name, true⟩,
            { s with namespaces := ns_name :: s.namespaces })

/-- The prefix of `exec` (src/main.rs lines 86-162) up to namespace
creation. The first phase (lines 91-117) fixes the provider and the server
key: with a custom config it requires an explicit protocol and derives the
key from the file name; otherwise it requires a provider (panicking
`expect` when absent), rejects `Custom` without a config file, and takes
the server prefix (again a panicking `expect` when absent). -/
def execModel (env : ExecEnv) (cmd : ExecCommand) (s : SysState) :
    ExecResult ExecOut × SysState :=
  match cmd.custom_config with
  | some name =>
    if cmd.protocol.isNone then
      (.err "Must specify protocol when using custom config", s)
    else
      match customServerKey name with
      | none => (.panic "byte index 4 is out of bounds", s)
      | some key => execAfterProviderResolution env cmd s VpnProvider.Custom key
  | none =>
    match cmd.vpn_provider with
    | none => (.panic "Enter a VPN provider", s)
    | some provider =>
      if provider = VpnProvider.Custom then
        (.err "Must provide config file if using custom VPN Provider", s)
      else
        match cmd.server with
        | none => (.panic "Enter a VPN server prefix", s)
        | some server_name => execAfterProviderResolution env cmd s provider server_name

/-- The application-user fallback of `exec` (src/main.rs lines 219-223):
the explicit `--user` argument when given, otherwise the `SUDO_USER`
environment variable when set. -/
def chooseUser (commandUser sudoUser : Option String) : Option String :=
  if commandUser.isNone then sudoUser else commandUser

/-- Modelled from the spec: `ApplicationWrapper` (its source file,
src/application_wrapper.rs, is not under src/) "spawns the user's command
... with the privileges of the chosen unprivileged user (... then refuses
to run as root unless explicitly allowed)" (section 4.6). -/
def applicationRunUser (user : Option String) (allowRoot : Bool) : Except String String :=
  match user with
  | some u => .ok u
  | none => if allowRoot then .ok "root" else .error "Refusing to run as root"

/-- C1: get_protocol is a total deterministic function of (provider, request)
matching the spec table of section 4.7: Mullvad defaults to Wireguard and
honours either explicit request; TigerVpn and PrivateInternetAccess yield
OpenVpn for none/OpenVpn requests and reject Wireguard with an Unsupported
error; Custom defaults to Wireguard and otherwise honours the request. -/
theorem get_protocol_matches_spec_table :
    get_protocol VpnProvider.Mullvad none = .ok Protocol.Wireguard ∧
    get_protocol VpnProvider.Mullvad (some Protocol.OpenVpn) = .ok Protocol.OpenVpn ∧
    get_protocol VpnProvider.Mullvad (some Protocol.Wireguard) = .ok Protocol.Wireguard ∧
    get_protocol VpnProvider.TigerVpn none = .ok Protocol.OpenVpn ∧
    get_protocol VpnProvider.TigerVpn (some Protocol.OpenVpn) = .ok Protocol.OpenVpn ∧
    get_protocol VpnProvider.TigerVpn (some Protocol.Wireguard)
      = .error "Wireguard not implemented for TigerVPN" ∧
    get_protocol VpnProvider.PrivateInternetAccess none = .ok Protocol.OpenVpn ∧
    get_protocol VpnProvider.PrivateInternetAccess (some Protocol.OpenVpn)
      = .ok Protocol.OpenVpn ∧
    get_protocol VpnProvider.PrivateInternetAccess (some Protocol.Wireguard)
      = .error "Wireguard not implemented for PrivateInternetAccess" ∧
    get_protocol VpnProvider.Custom none = .ok Protocol.Wireguard ∧
    get_protocol VpnProvider.Custom (some Protocol.OpenVpn) = .ok Protocol.OpenVpn ∧
    get_protocol VpnProvider.Custom (some Protocol.Wireguard) = .ok Protocol.Wireguard :=
  ⟨rfl, rfl, rfl, rfl, rfl, rfl, rfl, rfl, rfl, rfl, rfl, rfl⟩

/-- Helper: when `chosenRecord` is `none`, the filtered list is empty. -/
theorem chosenRecord_eq_none (k : Nat) (a : String) (list : List VpnServer)
    (h : chosenRecord k a list = none) :
    list.filter (fun x => serverMatches (toLowerStr a) x) = [] := by
  unfold chosenRecord at h
  set record := list.filter (fun x => serverMatches (toLowerStr a) x) with hrec
  by_contra hne
  have hpos : 0 < record.length := List.length_pos.mpr hne
  rw [List.get?_eq_get (Nat.mod_lt k hpos)] at h
  exact Option.some_ne_none _ h

/-- Helper: on an empty match set, `find_host_from_alias_w` errors with no
warnings. -/
theorem find_w_of_none (k : Nat) (a : String) (list : List VpnServer)
    (h : chosenRecord k a list = none) :
    find_host_from_alias_w k a list
      = (.error ("Could not find server alias " ++ toLowerStr a ++ " in serverlist"), []) := by
  have hnil := chosenRecord_eq_none k a list h
  unfold find_host_from_alias_w
  simp only [hnil, List.length_nil]
  rfl

/-- Helper: when `chosenRecord` selects `r`, `find_host_from_alias_w`
returns `r`'s data, defaulting the missing port and protocol, and emits
the corresponding warnings. -/
theorem find_w_of_some (k : Nat) (a : String) (list : List VpnServer) (r : VpnServer)
    (h : chosenRecord k a list = some r) :
    find_host_from_alias_w k a list
      = (.ok (r.host, r.port.getD 1194, r.«alias», r.protocol.getD OpenVpnProtocol.UDP),
        (if r.port.isNone then [defaultPortWarning r.host] else [])
          ++ (if r.protocol.isNone then [defaultProtocolWarning r.host] else [])) := by
  unfold chosenRecord at h
  unfold find_host_from_alias_w
  set record := list.filter (fun x => serverMatches (toLowerStr a) x) with hrec
  rcases Nat.eq_zero_or_pos record.length with hz | hpos
  · rw [List.length_eq_zero.mp hz] at h
    simp at h
  · have hlt : k % record.length < record.length := Nat.mod_lt k hpos
    rw [List.get?_eq_get hlt] at h
    have hr : record.get ⟨k % record.length, hlt⟩ = r := Option.some_injective _ h
    rw [dif_neg (Nat.pos_iff_ne_zero.mp hpos)]
    simp only [hr]
    cases hp : r.port <;> cases hpr : r.protocol <;> simp [hp, hpr, Option.getD]

/-- Helper: the chosen record is a member of the filtered list. -/
theorem chosenRecord_mem (k : Nat) (a : String) (list : List VpnServer) (r : VpnServer)
    (h : chosenRecord k a list = some r) :
    r ∈ list ∧ serverMatches (toLowerStr a) r = true := by
  unfold chosenRecord at h
  have := List.get?_mem h
  exact List.mem_filter.mp this

/-- C2: find_host_from_alias returns the host, defaulted port, alias and
defaulted protocol of a member of the server list satisfying one of the
three prefix rules against the lowercased query, and errors exactly when
no member of the list satisfies any of them. `k` ranges over every
possible random choice. -/
theorem find_host_from_alias_sound (k : Nat) (a : String) (list : List VpnServer) :
    (∀ host port al protocol,
      find_host_from_alias k a list = .ok (host, port, al, protocol) →
      ∃ s, s ∈ list ∧ serverMatches (toLowerStr a) s = true ∧ host = s.host
        ∧ port = s.port.getD 1194 ∧ al = s.«alias»
        ∧ protocol = s.protocol.getD OpenVpnProtocol.UDP) ∧
    ((∃ e, find_host_from_alias k a list = .error e) ↔
      ¬ ∃ s, s ∈ list ∧ serverMatches (toLowerStr a) s = true) := by
  constructor
  · intro host port al protocol h
    cases hc : chosenRecord k a list with
    | none =>
      rw [show find_host_from_alias k a list = (find_host_from_alias_w k a list).1 from rfl,
        find_w_of_none k a list hc] at h
      simp at h
    | some r =>
      rw [show find_host_from_alias k a list = (find_host_from_alias_w k a list).1 from rfl,
        find_w_of_some k a list r hc] at h
      obtain ⟨hmem, hmatch⟩ := chosenRecord_mem k a list r hc
      simp only [Except.ok.injEq, Prod.mk.injEq] at h
      exact ⟨r, hmem, hmatch, h.1.symm, h.2.1.symm, h.2.2.1.symm, h.2.2.2.symm⟩
  · constructor
    · rintro ⟨e, he⟩ ⟨s, hmem, hmatch⟩
      cases hc : chosenRecord k a list with
      | none =>
        have hnil := chosenRecord_eq_none k a list hc
        have : s ∈ list.filter (fun x => serverMatches (toLowerStr a) x) :=
          List.mem_filter.mpr ⟨hmem, hmatch⟩
        rw [hnil] at this
        exact absurd this (List.not_mem_nil s)
      | some r =>
        rw [show find_host_from_alias k a list = (find_host_from_alias_w k a list).1 from rfl,
          find_w_of_some k a list r hc] at he
        simp at he
    · intro hno
      cases hc : chosenRecord k a list with
      | none =>
        exact ⟨_, by
          rw [show find_host_from_alias k a list = (find_host_from_alias_w k a list).1 from rfl,
            find_w_of_none k a list hc]⟩
      | some r =>
        obtain ⟨hmem, hmatch⟩ := chosenRecord_mem k a list r hc
        exact absurd ⟨r, hmem, hmatch⟩ hno

/-- Witness for C2 at a one-row list and query "US": the theorem yields a
matching member with the defaulted port and protocol. -/
theorem find_host_from_alias_sound_witness :
    ∃ s, s ∈ [VpnServer.mk "us_east" "us" "h1" none none]
      ∧ serverMatches (toLowerStr "US") s = true ∧ "h1" = s.host
      ∧ 1194 = s.port.getD 1194 ∧ "us" = s.«alias»
      ∧ OpenVpnProtocol.UDP = s.protocol.getD OpenVpnProtocol.UDP :=
  (find_host_from_alias_sound 0 "US" [VpnServer.mk "us_east" "us" "h1" none none]).1
    "h1" 1194 "us" OpenVpnProtocol.UDP rfl

/-- C6: for the record find_host_from_alias selects, an absent port yields
1194 and an absent protocol yields UDP, each with a warning emitted, and a
present port or protocol is returned as recorded. -/
theorem find_host_defaults_and_warnings (k : Nat) (a : String) (list : List VpnServer)
    (r : VpnServer) (hr : chosenRecord k a list = some r) :
    ∀ host port al protocol ws,
      find_host_from_alias_w k a list = (.ok (host, port, al, protocol), ws) →
      (r.port = none → port = 1194 ∧ defaultPortWarning r.host ∈ ws) ∧
      (∀ q, r.port = some q → port = q) ∧
      (r.protocol = none →
        protocol = OpenVpnProtocol.UDP ∧ defaultProtocolWarning r.host ∈ ws) ∧
      (∀ pr, r.protocol = some pr → protocol = pr) := by
  intro host port al protocol ws h
  rw [find_w_of_some k a list r hr] at h
  simp only [Prod.mk.injEq, Except.ok.injEq] at h
  obtain ⟨⟨hh, hp2, hal, hpr2⟩, hws⟩ := h
  refine ⟨?_, ?_, ?_, ?_⟩
  · intro hnone
    constructor
    · rw [← hp2, hnone]; rfl
    · rw [← hws, hnone]; simp
  · intro q hq
    rw [← hp2, hq]; rfl
  · intro hnone
    constructor
    · rw [← hpr2, hnone]; rfl
    · rw [← hws, hnone]; simp
  · intro pr hpr
    rw [← hpr2, hpr]; rfl

/-- Witness for C6 at a record with no port and no protocol: the defaults
1194 and UDP apply and the port warning is among the emitted warnings. -/
theorem find_host_defaults_and_warnings_witness :
    1194 = 1194 ∧ defaultPortWarning "h1" ∈
      [defaultPortWarning "h1", defaultProtocolWarning "h1"] :=
  ((find_host_defaults_and_warnings 0 "us" [VpnServer.mk "us_east" "us" "h1" none none]
      (VpnServer.mk "us_east" "us" "h1" none none) rfl "h1" 1194 "us" OpenVpnProtocol.UDP
      [defaultPortWarning "h1", defaultProtocolWarning "h1"] rfl).1 rfl)

/-- Helper: get_protocol never fails for the Custom provider. -/
theorem get_protocol_custom_ok (r : Option Protocol) :
    ∃ p, get_protocol VpnProvider.Custom r = .ok p := by
  cases r with
  | none => exact ⟨_, rfl⟩
  | some pr => cases pr <;> exact ⟨_, rfl⟩

/-- Helper: the tail of exec past provider resolution changes no state and
creates no namespace when protocol resolution fails. -/
theorem execAfter_error_of_get_protocol (env : ExecEnv) (cmd : ExecCommand) (s : SysState)
    (p : VpnProvider) (sn : String) (e : String)
    (h : get_protocol p cmd.protocol = .error e) :
    execAfterProviderResolution env cmd s p sn = (.err e, s) := by
  unfold execAfterProviderResolution
  rw [h]

/-- C3: an exec invocation whose provider/protocol pair the resolution
table rejects returns that error with the system state unchanged: no
namespace is created and no later setup step is reached (the model
sequences namespace creation strictly after protocol resolution). -/
theorem unsupported_pair_creates_no_namespace (env : ExecEnv) (cmd : ExecCommand)
    (s : SysState) (p : VpnProvider) (srv : String) (e : String)
    (h1 : cmd.custom_config = none) (h2 : cmd.vpn_provider = some p)
    (h3 : cmd.server = some srv) (h4 : get_protocol p cmd.protocol = .error e) :
    execModel env cmd s = (.err e, s) := by
  have hp : ¬ p = VpnProvider.Custom := by
    intro hc
    subst hc
    obtain ⟨pr, hpr⟩ := get_protocol_custom_ok cmd.protocol
    rw [hpr] at h4
    exact Except.noConfusion h4
  unfold execModel
  rw [h1, h2, h3]
  dsimp only
  rw [if_neg hp]
  exact execAfter_error_of_get_protocol env cmd s p srv e h4

/-- Witness for C3: PrivateInternetAccess with Wireguard requested fails
with the Unsupported error and leaves the empty system state empty. -/
theorem unsupported_pair_creates_no_namespace_witness :
    get_protocol VpnProvider.PrivateInternetAccess (some Protocol.Wireguard)
      = .error "Wireguard not implemented for PrivateInternetAccess" ∧
    execModel ⟨fun _ _ => true, true, ["eth0"]⟩
        ⟨none, some VpnProvider.PrivateInternetAccess, some Protocol.Wireguard,
          some "us", none⟩ ⟨[]⟩
      = (.err "Wireguard not implemented for PrivateInternetAccess", ⟨[]⟩) :=
  ⟨rfl, unsupported_pair_creates_no_namespace _ _ _
    VpnProvider.PrivateInternetAccess "us" _ rfl rfl rfl rfl⟩

/-- C4: an exec invocation with a custom config but no explicit protocol
fails with the argument error immediately, before provider resolution,
namespace-name derivation, or namespace creation: the state is unchanged. -/
theorem custom_config_requires_protocol (env : ExecEnv) (cmd : ExecCommand)
    (s : SysState) (name : String)
    (h1 : cmd.custom_config = some name) (h2 : cmd.protocol = none) :
    execModel env cmd s = (.err "Must specify protocol when using custom config", s) := by
  unfold execModel
  rw [h1, h2]
  rfl

/-- Witness for C4 at the spec scenario `--custom-config ./my vpn.ovpn`
with no `--protocol`. -/
theorem custom_config_requires_protocol_witness :
    execModel ⟨fun _ _ => true, true, ["eth0"]⟩
        ⟨some "my vpn.ovpn", none, none, none, none⟩ ⟨[]⟩
      = (.err "Must specify protocol when using custom config", ⟨[]⟩) :=
  custom_config_requires_protocol _ _ _ "my vpn.ovpn" rfl rfl

/-- Helper: whenever the tail of exec past provider resolution returns
normally, the namespace name in its output is exactly
`vopono_<provider-alias>_<server-key>`. -/
theorem execAfter_ok_nsName (env : ExecEnv) (cmd : ExecCommand) (s : SysState)
    (p : VpnProvider) (sn : String) (out : ExecOut) (s2 : SysState)
    (h : execAfterProviderResolution env cmd s p sn = (.ok out, s2)) :
    out.nsName = "vopono_" ++ p.«alias» ++ "_" ++ sn := by
  unfold execAfterProviderResolution at h
  split at h
  · simp at h
  · split at h
    · simp at h
    · dsimp only at h
      split at h
      · simp at h
      · split at h
        · simp only [Prod.mk.injEq, ExecResult.ok.injEq] at h
          rw [← h.1]
        · simp only [Prod.mk.injEq, ExecResult.ok.injEq] at h
          rw [← h.1]

/-- C5 (amended): the namespace name is vopono_<provider-alias>_<server-key>,
where the server-key is the supplied server alias for a provider-based
invocation, and for a custom-config invocation is the first 4 bytes of the
config file's NAME (extension included, spaces and hyphens removed) — not
of the file's stem as the claim states. -/
theorem namespace_name_formula (env : ExecEnv) (cmd : ExecCommand) (s : SysState) :
    (∀ name key out s2, cmd.custom_config = some name →
      customServerKey name = some key →
      execModel env cmd s = (.ok out, s2) →
      out.nsName = "vopono_" ++ VpnProvider.Custom.«alias» ++ "_" ++ key) ∧
    (∀ p srv out s2, cmd.custom_config = none → cmd.vpn_provider = some p →
      cmd.server = some srv →
      execModel env cmd s = (.ok out, s2) →
      out.nsName = "vopono_" ++ p.«alias» ++ "_" ++ srv) := by
  constructor
  · intro name key out s2 h1 hkey h
    unfold execModel at h
    rw [h1] at h
    dsimp only at h
    by_cases hp : cmd.protocol.isNone
    · rw [if_pos hp] at h
      simp at h
    · rw [if_neg hp, hkey] at h
      exact execAfter_ok_nsName env cmd s VpnProvider.Custom key out s2 h
  · intro p srv out s2 h1 h2 h3 h
    unfold execModel at h
    rw [h1, h2, h3] at h
    dsimp only at h
    by_cases hp : p = VpnProvider.Custom
    · rw [if_pos hp] at h
      simp at h
    · rw [if_neg hp] at h
      exact execAfter_ok_nsName env cmd s p srv out s2 h

/-- Counterexample to C5 as stated: for the custom config file name
"abc.ovpn" the code's namespace name is "vopono_cus_abc." (first 4 bytes
of the sanitized file NAME, extension included), while the claim's
derivation from the file STEM gives "abc" and hence "vopono_cus_abc". -/
theorem namespace_name_stem_counterexample :
    execModel ⟨fun _ _ => true, true, ["eth0"]⟩
        ⟨some "abc.ovpn", none, some Protocol.OpenVpn, none, none⟩ ⟨[]⟩
      = (.ok ⟨VpnProvider.Custom, Protocol.OpenVpn, "vopono_cus_abc.", true⟩,
          ⟨["vopono_cus_abc."]⟩) ∧
    specStemServerKey "abc.ovpn" = "abc" ∧
    "vopono_cus_abc."
      ≠ "vopono_" ++ VpnProvider.Custom.«alias» ++ "_" ++ specStemServerKey "abc.ovpn" :=
  ⟨rfl, rfl, by decide⟩

/-- Witness for the amended C5 at the custom config "abcd.ovpn" (server
key "abcd") and at a Mullvad invocation with server alias "se". -/
theorem namespace_name_formula_witness :
    (ExecOut.mk VpnProvider.Custom Protocol.OpenVpn "vopono_cus_abcd" true).nsName
        = "vopono_" ++ VpnProvider.Custom.«alias» ++ "_" ++ "abcd" ∧
    (ExecOut.mk VpnProvider.Mullvad Protocol.Wireguard "vopono_mv_se" true).nsName
        = "vopono_" ++ VpnProvider.Mullvad.«alias» ++ "_" ++ "se" :=
  ⟨(namespace_name_formula ⟨fun _ _ => true, true, ["eth0"]⟩
      ⟨some "abcd.ovpn", none, some Protocol.OpenVpn, none, none⟩ ⟨[]⟩).1
      "abcd.ovpn" "abcd" ⟨VpnProvider.Custom, Protocol.OpenVpn, "vopono_cus_abcd", true⟩
      ⟨["vopono_cus_abcd"]⟩ rfl rfl rfl,
    (namespace_name_formula ⟨fun _ _ => true, true, ["eth0"]⟩
      ⟨none, some VpnProvider.Mullvad, none, some "se", none⟩ ⟨[]⟩).2
      VpnProvider.Mullvad "se" ⟨VpnProvider.Mullvad, Protocol.Wireguard, "vopono_mv_se", true⟩
      ⟨["vopono_mv_se"]⟩ rfl rfl rfl rfl⟩

/-- Helper: a decimal digit is never whitespace. -/
theorem digit_not_whitespace (c : Char) (h : c.isDigit = true) :
    c.isWhitespace = false := by
  by_contra hw
  rw [Bool.not_eq_false] at hw
  have h2 : c = ' ' ∨ c = '\t' ∨ c = '\r' ∨ c = '\n' := by
    simpa [Char.isWhitespace, or_assoc] using hw
  rcases h2 with rfl | rfl | rfl | rfl <;> simp at h

/-- Helper: the retain predicate of get_auth keeps exactly the decimal
digits, since a digit is never whitespace. -/
theorem retain_keeps_digits (l : List Char) :
    l.filter (fun c => !c.isWhitespace && c.isDigit)
      = l.filter (fun c => c.isDigit) := by
  apply List.filter_congr
  intro c _
  by_cases hd : c.isDigit = true
  · rw [hd, digit_not_whitespace c hd]
    rfl
  · rw [Bool.not_eq_true] at hd
    rw [hd]
    simp

/-- C7: on the Mullvad prompt path of get_auth, every non-digit character
of the entered account number is removed; the call fails unless exactly 16
digits remain; on success the file content written to auth.txt is two
lines, the 16 digits and the literal password "m". -/
theorem mullvad_prompt_validation (u p : String) :
    (u.toList.filter (fun c => !c.isWhitespace && c.isDigit)
        = u.toList.filter (fun c => c.isDigit)) ∧
    ((u.toList.filter (fun c => !c.isWhitespace && c.isDigit)).length ≠ 16 →
      get_auth VpnProvider.Mullvad none u p
        = .error ("Mullvad account number should be 16 digits!, parsed: "
            ++ String.mk (u.toList.filter (fun c => !c.isWhitespace && c.isDigit)))) ∧
    ((u.toList.filter (fun c => !c.isWhitespace && c.isDigit)).length = 16 →
      get_auth VpnProvider.Mullvad none u p
        = .ok (some (String.mk (u.toList.filter (fun c => !c.isWhitespace && c.isDigit))
            ++ "\n" ++ "m" ++ "\n"))) := by
  refine ⟨retain_keeps_digits u.toList, ?_, ?_⟩
  · intro hlen
    unfold get_auth
    dsimp only
    rw [if_pos rfl, if_pos ⟨rfl, by simpa [String.length_mk] using hlen⟩]
  · intro hlen
    unfold get_auth
    dsimp only
    rw [if_pos rfl, if_neg ?hno, if_pos rfl]
    case hno =>
      rintro ⟨-, hne⟩
      exact hne (by simpa [String.length_mk] using hlen)

/-- Witness for C7 at the account entry "1234 5678 9012 3456": the spaces
are stripped, 16 digits remain, and the written file is the digits line
followed by the literal "m" line. -/
theorem mullvad_prompt_validation_witness :
    ("1234 5678 9012 3456".toList.filter (fun c => !c.isWhitespace && c.isDigit)).length
        = 16 ∧
    get_auth VpnProvider.Mullvad none "1234 5678 9012 3456" "ignored"
      = .ok (some (String.mk
          ("1234 5678 9012 3456".toList.filter (fun c => !c.isWhitespace && c.isDigit))
          ++ "\n" ++ "m" ++ "\n")) :=
  ⟨rfl, (mullvad_prompt_validation "1234 5678 9012 3456" "ignored").2.2 rfl⟩

/-- C10: when the auth file exists, get_auth succeeds exactly when the file
has at least two lines; it writes nothing, performs no validation of the
content for any provider, and never consults the prompt inputs. -/
theorem existing_auth_file_no_validation (provider : VpnProvider)
    (lines : List String) (u p : String) :
    (2 ≤ lines.length → get_auth provider (some lines) u p = .ok none) ∧
    (lines.length < 2 → ∃ e, get_auth provider (some lines) u p = .error e) := by
  constructor
  · intro h
    match lines, h with
    | a :: b :: rest, _ => rfl
  · intro h
    match lines, h with
    | [], _ => exact ⟨"No username", rfl⟩
    | [a], _ => exact ⟨"No password", rfl⟩

/-- Witness for C10: a two-line auth file is accepted unchanged (result
`none`: nothing written) even with a Mullvad username that would fail the
16-digit validation of the prompt path, and a one-line file errors. -/
theorem existing_auth_file_no_validation_witness :
    (2 ≤ (["not16digits", "pw"] : List String).length ∧
      get_auth VpnProvider.Mullvad (some ["not16digits", "pw"]) "u" "p" = .ok none) ∧
    ((["only-user"] : List String).length < 2 ∧
      ∃ e, get_auth VpnProvider.Mullvad (some ["only-user"]) "u" "p" = .error e) :=
  ⟨⟨by decide,
      (existing_auth_file_no_validation VpnProvider.Mullvad ["not16digits", "pw"] "u" "p").1
        (by decide)⟩,
    ⟨by decide,
      (existing_auth_file_no_validation VpnProvider.Mullvad ["only-user"] "u" "p").2
        (by decide)⟩⟩

/-- C8: the user the application is spawned as falls back in order: the
explicit `--user` argument when given, otherwise `SUDO_USER` when set;
with neither, the spec-modelled `ApplicationWrapper` refuses to run the
application as root unless explicitly allowed. -/
theorem application_user_fallback (u : String) (su : Option String) (b : Bool) :
    chooseUser (some u) su = some u ∧
    chooseUser none su = su ∧
    applicationRunUser (some u) b = .ok u ∧
    applicationRunUser (chooseUser none none) true = .ok "root" ∧
    applicationRunUser (chooseUser none none) false = .error "Refusing to run as root" :=
  ⟨rfl, rfl, rfl, rfl, rfl⟩

/-- Helper: mapping over an option preserves `isSome`. -/
theorem optionMap_isSome {α β : Type} (f : α → β) (o : Option α) :
    (o.map f).isSome = o.isSome := by
  cases o <;> rfl

/-- Helper: the modelled Rust byte-slice `[0..n]` succeeds exactly when
some character-list prefix has UTF-8 length n, i.e. when the string is at
least n bytes long and byte n is a character boundary. -/
theorem takeBytes_isSome_iff (l : List Char) :
    ∀ n, (takeBytes n l).isSome = true ↔ ∃ k, utf8Length (l.take k) = n := by
  induction l with
  | nil =>
    intro n
    cases n with
    | zero =>
      simp only [takeBytes, Option.isSome_some, true_iff]
      exact ⟨0, rfl⟩
    | succ m =>
      simp only [takeBytes, Option.isSome_none, Bool.false_eq_true, false_iff]
      rintro ⟨k, hk⟩
      simp [utf8Length] at hk
  | cons c cs ih =>
    intro n
    cases n with
    | zero =>
      simp only [takeBytes, Option.isSome_some, true_iff]
      exact ⟨0, rfl⟩
    | succ m =>
      simp only [takeBytes]
      split
      · rename_i hle
        rw [optionMap_isSome, ih (m + 1 - c.utf8Size)]
        constructor
        · rintro ⟨k, hk⟩
          refine ⟨k + 1, ?_⟩
          simp only [List.take_succ_cons, utf8Length, List.map_cons, List.sum_cons]
          simp only [utf8Length] at hk
          omega
        · rintro ⟨k, hk⟩
          cases k with
          | zero =>
            simp [utf8Length] at hk
          | succ j =>
            refine ⟨j, ?_⟩
            simp only [List.take_succ_cons, utf8Length, List.map_cons, List.sum_cons] at hk
            simp only [utf8Length]
            omega
      · rename_i hgt
        simp only [Option.isSome_none, Bool.false_eq_true, false_iff]
        rintro ⟨k, hk⟩
        cases k with
        | zero =>
          simp [utf8Length] at hk
        | succ j =>
          simp only [List.take_succ_cons, utf8Length, List.map_cons, List.sum_cons] at hk
          omega

/-- C9: the custom-config server-key derivation is defined exactly when
the sanitized config file NAME (extension included, spaces and hyphens
removed) has a character boundary at byte 4 — in particular is at least 4
bytes long; on any shorter name exec panics (a dedicated `panic` outcome,
not an `Err` return). The derivation is a function of the file name
alone: the file's contents do not appear in the model. -/
theorem custom_server_key_domain :
    (∀ name : String, (customServerKey name).isSome = true ↔
      ∃ k, utf8Length ((sanitizeConfigName name).toList.take k) = 4) ∧
    (∀ (env : ExecEnv) (cmd : ExecCommand) (s : SysState) (name : String),
      cmd.custom_config = some name → cmd.protocol.isNone = false →
      customServerKey name = none →
      execModel env cmd s = (.panic "byte index 4 is out of bounds", s)) := by
  constructor
  · intro name
    unfold customServerKey
    rw [optionMap_isSome]
    exact takeBytes_isSome_iff (sanitizeConfigName name).toList 4
  · intro env cmd s name h1 h2 h3
    unfold execModel
    rw [h1]
    dsimp only
    rw [if_neg (by simp [h2]), h3]

/-- Witness for C9 at the two-byte config name "ab": the slice is
undefined and the exec model panics without touching the state. -/
theorem custom_server_key_domain_witness :
    customServerKey "ab" = none ∧
    execModel ⟨fun _ _ => true, true, ["eth0"]⟩
        ⟨some "ab", none, some Protocol.Wireguard, none, none⟩ ⟨[]⟩
      = (.panic "byte index 4 is out of bounds", ⟨[]⟩) :=
  ⟨rfl, custom_server_key_domain.2 _ _ _ "ab" rfl rfl rfl⟩
